import Mathlib

/-!
Shallow embedding of the multisocket core: the framed wire message codec
(package `message`), the recyclable pipe-id generator (package `utils`),
the connector's pipe-limit admission control and the dialer's reconnect
backoff (package `connector`, socket variant), and the legacy sender's
message constructor (package `sender`).

Byte strings are `List Nat` with every element understood modulo 256
(Go `[]byte`); machine-integer arithmetic (`uint8`, `uint32`) is modelled
with explicit `% 256` / `% 2^32`. Fallible decoding returns `Except`.
-/

namespace message

/-- Big-endian 4-byte encoding of a pipe id (`binary.BigEndian.PutUint32`).
For `a < 2^32` the four produced bytes are each below 256. -/
def be32 (a : Nat) : List Nat :=
  [a / 16777216 % 256, a / 65536 % 256, a / 256 % 256, a % 256]

/-- Big-endian value of a byte list (`binary.BigEndian.Uint32` on 4-byte
lists); each element is reduced mod 256, encoding the `uint8` element type. -/
def be32val (l : List Nat) : Nat :=
  l.foldl (fun acc b => acc * 256 + b % 256) 0

/-- send type `ToOne` (low 2 bits of Flags). -/
def SendTypeToOne : Nat := 0
/-- send type `ToAll`. -/
def SendTypeToAll : Nat := 1
/-- send type `ToDest`. -/
def SendTypeToDest : Nat := 2

/-- socket internal message flag (`1 << 2`). -/
def MsgFlagInternal : Nat := 4
/-- raw transport message flag (`1 << 3`). -/
def MsgFlagRaw : Nat := 8
/-- protocol control message flag (`1 << 4`). -/
def MsgFlagControl : Nat := 16

/-- `DefaultMsgTTL` -/
def DefaultMsgTTL : Nat := 16

/-- `MsgHeader`: message meta data. All fields are machine integers
(`uint8` except `length : uint32`), kept in range by construction. -/
structure MsgHeader where
  flags : Nat
  ttl : Nat
  hops : Nat
  distance : Nat
  length : Nat
deriving Repr, DecidableEq

/-- `MsgPath`: a path composed of 4-byte big-endian pipe ids. -/
abbrev MsgPath := List Nat

/-- `Message`: header plus source path, destination path and content. -/
structure Message where
  header : MsgHeader
  source : MsgPath
  destination : MsgPath
  content : List Nat
deriving Repr, DecidableEq

/-- `MsgHeader.SendType`: `Flags & 0x03`. -/
def MsgHeader.SendType (h : MsgHeader) : Nat := h.flags % 4

/-- `MsgHeader.HasFlags`: `Flags & flags == flags`. -/
def MsgHeader.HasFlags (h : MsgHeader) (flags : Nat) : Bool :=
  h.flags &&& flags == flags

/-- `MsgHeader.Encode`: the 8 header bytes
`[Flags, TTL, Hops, Distance] ++ bigendian(Length)`. -/
def MsgHeader.Encode (h : MsgHeader) : List Nat :=
  [h.flags % 256, h.ttl % 256, h.hops % 256, h.distance % 256] ++ be32 h.length

/-- `MsgPath.Size`: byte size of the path. -/
def MsgPath.Size (path : MsgPath) : Nat := path.length

/-- `MsgPath.Length`: `uint8(len(path) / 4)`. -/
def MsgPath.Length (path : MsgPath) : Nat := path.length / 4 % 256

/-- `MsgPath.CurID`: big-endian value of the last 4 bytes. -/
def MsgPath.CurID (path : MsgPath) : Nat :=
  be32val (path.drop (path.length - 4))

/-- `MsgPath.AddSource`: append a 4-byte id at the tail. -/
def MsgPath.AddSource (path : MsgPath) (id : List Nat) : MsgPath :=
  path ++ id.take 4

/-- `MsgPath.NextID`: the tail id and the remaining path. -/
def MsgPath.NextID (path : MsgPath) : Nat × MsgPath :=
  (be32val (path.drop (path.length - 4)), path.take (path.length - 4))

/-- Decoding errors of `NewMessageFromReader`. `headerRead` and `bodyRead`
stand for failed `io.ReadFull`/`io.CopyN` calls; `hopsOverflow` marks the
wire `Hops = 255` case, in which the Go code computes `sourceSize = 0` and
panics slicing `msg.Source[:sourceSize-4]`. -/
inductive DecodeErr
  | headerRead
  | contentTooLong
  | hopsOverflow
  | bodyRead
deriving Repr, DecidableEq

/-- `decodeHeader`: read 8 bytes and parse
`Flags, TTL, Hops, Distance, Length` (big-endian `uint32` length);
returns the remaining stream. -/
def decodeHeader (w : List Nat) : Option (MsgHeader × List Nat) :=
  match w with
  | f :: t :: h :: d :: l0 :: l1 :: l2 :: l3 :: rest =>
    some (⟨f % 256, t % 256, h % 256, d % 256, be32val [l0, l1, l2, l3]⟩, rest)
  | _ => none

/-- `NewMessageFromReader`: decode one inbound frame arriving on pipe `pid`
from the byte stream `w`, with content limit `maxLength` (0 = unlimited).
Returns the decode outcome together with a flag telling whether the reader
(the pipe) was closed by the decoder (`r.Close()`, done exactly in the
`ErrContentTooLong` branch). On success the decoded message has the wire
source extended by `pid`, `Hops` incremented, `TTL` decremented (wrapping
as `uint8`), and — when `Distance > 0` — the last 4 destination bytes
discarded and `Distance` decremented. -/
def NewMessageFromReader (pid maxLength : Nat) (w : List Nat) :
    Except DecodeErr Message × Bool :=
  match decodeHeader w with
  | none => (.error .headerRead, false)
  | some (h, body) =>
    if maxLength ≠ 0 ∧ maxLength < h.length then (.error .contentTooLong, true)
    else if h.hops = 255 then (.error .hopsOverflow, false)
    else if body.length < 4 * (h.hops + 1) - 4 then (.error .bodyRead, false)
    else
      let source := body.take (4 * (h.hops + 1) - 4) ++ be32 pid
      let rest1 := body.drop (4 * (h.hops + 1) - 4)
      if 0 < h.distance then
        if rest1.length < 4 * (h.distance - 1) + 4 then (.error .bodyRead, false)
        else if (rest1.drop (4 * (h.distance - 1) + 4)).length < h.length then
          (.error .bodyRead, false)
        else
          (.ok ⟨⟨h.flags, (h.ttl + 255) % 256, h.hops + 1, h.distance - 1, h.length⟩,
                source, rest1.take (4 * (h.distance - 1)),
                (rest1.drop (4 * (h.distance - 1) + 4)).take h.length⟩, false)
      else
        if rest1.length < h.length then (.error .bodyRead, false)
        else
          (.ok ⟨⟨h.flags, (h.ttl + 255) % 256, h.hops + 1, h.distance, h.length⟩,
                source, [], rest1.take h.length⟩, false)

/-- Successful decode as an `Option`. -/
def decodeOpt (pid maxLength : Nat) (w : List Nat) : Option Message :=
  ((NewMessageFromReader pid maxLength w).1).toOption

/-- `NewSendMessage`: build an outbound message. `ttl = 0` selects
`DefaultMsgTTL`; `Distance = uint8(len(dest)/4)`; the destination is
copied only when `Distance > 0`; `Length = uint32(len(content))`. -/
def NewSendMessage (sendType : Nat) (dest : MsgPath) (flags ttl : Nat)
    (content : List Nat) : Message :=
  let t := if ttl % 256 = 0 then DefaultMsgTTL else ttl % 256
  let distance := MsgPath.Length dest
  { header := { flags := (flags % 256) ||| (sendType % 256), ttl := t,
                hops := 0, distance := distance,
                length := content.length % 4294967296 },
    source := [],
    destination := if 0 < distance then dest else [],
    content := content }

/-- `NewRawRecvMessage`: wrap a raw chunk received on pipe `pid` as a
`ToOne` raw message: `Flags = MsgFlagRaw | SendTypeToOne`, then
`Hops++` (0 to 1) and `TTL--` (16 to 15); the source is the single id
`pid`; a `none` content models Go's nil chunk (EOF sentinel). -/
def NewRawRecvMessage (pid : Nat) (content : Option (List Nat)) : Message :=
  { header := { flags := MsgFlagRaw ||| SendTypeToOne,
                ttl := (DefaultMsgTTL + 255) % 256,
                hops := 0 + 1, distance := 0,
                length := (content.getD []).length % 4294967296 },
    source := be32 pid, destination := [],
    content := content.getD [] }

/-- The frame of a message on the wire: `Header.Encode()` followed by
`EncodeBody()`, whose buffer holds `Source ++ Destination ++ Content`
(`msg.buf` layout in the codec; a fresh send message has empty source). -/
def encodeMessage (m : Message) : List Nat :=
  m.header.Encode ++ m.source ++ m.destination ++ m.content

end message

namespace receiver

open message

/-- Delivery decision of the per-pipe receive loop (`receiver.run`): a
successfully received message is pushed onto the shared `recvq` unless
`NoRecv` is set or the `Internal` flag is set; a failed receive delivers
nothing. No other condition (in particular not TTL) is consulted. -/
def runDeliver (noRecv : Bool) (res : Option Message) : Option Message :=
  match res with
  | none => none
  | some m =>
    if noRecv then none
    else if m.header.HasFlags MsgFlagInternal then none
    else some m

end receiver

namespace message

/-- Modelled from the spec: the `ToDest` sender routing (spec section 4.8);
the sender package of this message-format version is not under src. A
`ToDest` message is transmitted on the pipe whose id is the tail entry of
`Destination` (`MsgPath.CurID`); the tail entry is consumed by the next
hop's decoder (spec section 4.2 step 5, `NewMessageFromReader`), and a
message with an empty destination cannot be routed (`BadDestination`).
The frame on the wire is `Header.Encode()` followed by the body. -/
def routeToDest (m : Message) : Option (Nat × List Nat) :=
  if m.destination.length = 0 then none
  else some (MsgPath.CurID m.destination, encodeMessage m)

/-- One reply hop: the holder routes by the destination tail and the next
node decodes the frame on its inbound pipe `pid` with content limit `ml`.
Returns the traversed pipe id and the message as decoded at the next node. -/
def replyHop (pid ml : Nat) (m : Message) : Option (Nat × Message) :=
  match routeToDest m with
  | none => none
  | some (routed, frame) =>
    match decodeOpt pid ml frame with
    | none => none
    | some m2 => some (routed, m2)

/-- Iterate `replyHop` along a list of `(pid, maxLength)` receiving nodes,
collecting the pipe ids the frame traversed. -/
def replyTraverse (m : Message) : List (Nat × Nat) → Option (List Nat × Message)
  | [] => some ([], m)
  | (pid, ml) :: rest =>
    match replyHop pid ml m with
    | none => none
    | some (routed, m2) =>
      match replyTraverse m2 rest with
      | none => none
      | some (routeds, mf) => some (routed :: routeds, mf)

end message

namespace utils

/-- `RecyclableIDGenerator`: a set of held ids plus a `uint32` cursor. -/
structure RecyclableIDGenerator where
  ids : Finset Nat
  next : Nat
deriving DecidableEq

/-- `NewRecyclableIDGenerator`: empty pool, cursor 0. -/
def NewRecyclableIDGenerator : RecyclableIDGenerator := ⟨∅, 0⟩

/-- The loop body of `NextID`: `id = next & 0x7fffffff`, `next++` (wrapping
as `uint32`); retry on `id = 0` or collision, else record and return the id.
The Go loop is unbounded; `fuel` bounds the number of iterations examined,
`none` meaning the loop has not terminated within `fuel` iterations. -/
def RecyclableIDGenerator.NextIDAux :
    Nat → RecyclableIDGenerator → Option (Nat × RecyclableIDGenerator)
  | 0, _ => none
  | fuel + 1, g =>
    let id := g.next % 2147483648
    let g' : RecyclableIDGenerator := ⟨g.ids, (g.next + 1) % 4294967296⟩
    if id = 0 then RecyclableIDGenerator.NextIDAux fuel g'
    else if id ∈ g.ids then RecyclableIDGenerator.NextIDAux fuel g'
    else some (id, ⟨insert id g.ids, g'.next⟩)

/-- `NextID` with an explicit iteration bound. -/
def RecyclableIDGenerator.NextID (g : RecyclableIDGenerator) (fuel : Nat) :
    Option (Nat × RecyclableIDGenerator) :=
  RecyclableIDGenerator.NextIDAux fuel g

/-- `Recycle`: return the id to the pool. -/
def RecyclableIDGenerator.Recycle (g : RecyclableIDGenerator) (id : Nat) :
    RecyclableIDGenerator :=
  ⟨g.ids.erase id, g.next⟩

/-- Operations on the generator as used by pipes: `next` draws an id for a
new pipe, `recycle` closes a pipe and frees its id. -/
inductive IDOp
  | next (fuel : Nat)
  | recycle (id : Nat)

/-- Step a generator together with the list of open (issued, unrecycled)
pipe ids. A `next` that does not terminate within its fuel issues nothing. -/
def idStep : RecyclableIDGenerator × List Nat → IDOp → RecyclableIDGenerator × List Nat
  | (g, held), .next fuel =>
    match g.NextID fuel with
    | none => (g, held)
    | some (id, g2) => (g2, held ++ [id])
  | (g, held), .recycle id => (g.Recycle id, held.erase id)

/-- Run a sequence of generator operations from the fresh generator. -/
def idRun (ops : List IDOp) : RecyclableIDGenerator × List Nat :=
  ops.foldl idStep (NewRecyclableIDGenerator, [])

end utils

namespace connector

/-- The socket connector's admission-control state: the pipe limit
(`-1` = unlimited), the set of open pipes, and the stopped flags of the
registered listeners and dialers. -/
structure Connector where
  limit : Int
  pipes : Finset Nat
  listenerStopped : List Bool
  dialerStopped : List Bool
deriving DecidableEq

/-- `NewWithLimit`: a connector with limit `n`, no pipes, and the given
listener/dialer stopped flags. -/
def NewWithLimit (n : Int) (ls ds : List Bool) : Connector := ⟨n, ∅, ls, ds⟩

/-- `connector.addPipe`: admit the pipe when under the limit, otherwise
close it (`go p.Close()`, reported by the returned flag); then, when the
limit is reached, `stop()` every listener and dialer. -/
def Connector.addPipe (c : Connector) (p : Nat) : Connector × Bool :=
  let step1 : Connector × Bool :=
    if c.limit = -1 ∨ (c.pipes.card : Int) < c.limit
    then ({ c with pipes := insert p c.pipes }, false)
    else (c, true)
  let c1 := step1.1
  if c1.limit ≠ -1 ∧ c1.limit ≤ (c1.pipes.card : Int)
  then ({ c1 with listenerStopped := c1.listenerStopped.map fun _ => true,
                  dialerStopped := c1.dialerStopped.map fun _ => true }, step1.2)
  else (c1, step1.2)

/-- `connector.remPipe`: remove the pipe; when this brings the count back
under the limit, `start()` every listener and dialer. -/
def Connector.remPipe (c : Connector) (p : Nat) : Connector :=
  let c1 := { c with pipes := c.pipes.erase p }
  if c1.limit ≠ -1 ∧ (c1.pipes.card : Int) < c1.limit
  then { c1 with listenerStopped := c1.listenerStopped.map fun _ => false,
                 dialerStopped := c1.dialerStopped.map fun _ => false }
  else c1

/-- Pipe lifecycle events reaching the connector. -/
inductive ConnOp
  | add (p : Nat)
  | rem (p : Nat)

/-- Apply one pipe event. -/
def connStep (c : Connector) : ConnOp → Connector
  | .add p => (c.addPipe p).1
  | .rem p => c.remPipe p

/-- Run a sequence of pipe events. -/
def connRun (c : Connector) (ops : List ConnOp) : Connector :=
  ops.foldl connStep c

/-- `defaultMinReconnTime = time.Millisecond * 100`, in nanoseconds. -/
def defaultMinReconnTime : Nat := 100 * 1000000

/-- `defaultMaxReconnTime = time.Second * 30`, in nanoseconds. -/
def defaultMaxReconnTime : Nat := 30 * 1000000000

/-- The dialer's reconnect-time options, as resolved by
`GetOptionDefault(DialerOption{Min,Max}ReconnectTime, default...)`. -/
structure DialerOptions where
  minReconnectTime : Nat
  maxReconnectTime : Nat
deriving DecidableEq

/-- The option values installed by `newDialer` (the package defaults). -/
def newDialerOptions : DialerOptions := ⟨defaultMinReconnTime, defaultMaxReconnTime⟩

/-- `actfact := rand.Float64()*(maxfact-minfact) + minfact` with
`minfact = 1.1`, `maxfact = 1.5`; the `float64` draw `u ∈ [0,1)` and the
arithmetic are modelled by exact rationals. -/
def actfact (u : ℚ) : ℚ := u * (3/2 - 11/10) + 11/10

/-- The `reconnTime` update performed by one run of `dialer.dial`:
on success reset to `MinReconnectTime`; on failure in redial mode multiply
by `actfact` (`time.Duration(actfact * float64(reconnTime))`, truncating)
and cap at `MaxReconnectTime` when that is non-zero; on failure without
redial leave it unchanged. -/
def dialReconnUpdate (opts : DialerOptions) (reconnTime : Nat) (ok redial : Bool)
    (u : ℚ) : Nat :=
  if ok then opts.minReconnectTime
  else if redial then
    let r := (actfact u * (reconnTime : ℚ)).floor.toNat
    if opts.maxReconnectTime ≠ 0 ∧ opts.maxReconnectTime < r
    then opts.maxReconnectTime else r
  else reconnTime

end connector

namespace sender

/-- Modelled from the spec: the sender package's default message TTL
(spec section 6.3, `Sender.TTL (u8, default 16)`); the constant's
declaration is not under src, only its use in `newMessage`. -/
def defaultMsgTTL : Nat := 16

/-- Modelled from the spec: the legacy `multisocket.MsgHeader` with an
explicit `SendType` field, as used by the legacy sender; its declaration is
not under src, only its callers. -/
structure MsgHeader where
  sendType : Nat
  ttl : Nat
  hops : Nat
  distance : Nat
deriving Repr, DecidableEq

/-- Modelled from the spec: the legacy `multisocket.Message`. -/
structure Message where
  header : MsgHeader
  source : List Nat
  destination : List Nat
  content : List Nat
deriving Repr, DecidableEq

/-- Modelled from the spec: the legacy reply send type (the spec's
`ToDest = 2`); its declaration is not under src. -/
def SendTypeReply : Nat := 2

/-- The legacy sender's internal message constructor: the header is built
with `TTL: defaultMsgTTL`, ignoring the `ttl` argument; `Distance` is set
from the destination only for reply sends. -/
def newMessage (sendType ttl : Nat) (dest : List Nat) (content : List Nat) :
    Message :=
  let h0 : MsgHeader :=
    { sendType := sendType % 256, ttl := defaultMsgTTL, hops := 0, distance := 0 }
  let h := if h0.sendType = SendTypeReply
           then { h0 with distance := dest.length / 4 % 256 } else h0
  { header := h, source := [], destination := dest, content := content }

end sender

namespace message

theorem length_be32 (a : Nat) : (be32 a).length = 4 := rfl

theorem be32val_be32 (a : Nat) (h : a < 4294967296) : be32val (be32 a) = a := by
  simp only [be32, be32val, List.foldl]
  omega

theorem decodeHeader_encoded (flags t h d L : Nat) (tail : List Nat)
    (hf : flags < 256) (ht : t < 256) (hh : h < 256) (hd : d < 256)
    (hL : L < 4294967296) :
    decodeHeader (flags :: t :: h :: d :: (be32 L ++ tail))
      = some (⟨flags, t, h, d, L⟩, tail) := by
  have hb := be32val_be32 L hL
  simp only [be32] at hb ⊢
  simp [decodeHeader, Nat.mod_eq_of_lt, hf, ht, hh, hd, hb]

/-- Decoding a well-formed frame `header ++ source ++ destination ++ content`
(with trailing stream `rest`) appends the receiving pipe id to the source,
increments `Hops`, decrements `TTL` (mod 256), pops the last destination id,
decrements `Distance`, and reads the content verbatim. -/
theorem NewMessageFromReader_append (pid ml flags t h d : Nat)
    (src dst c rest : List Nat)
    (hf : flags < 256) (ht : t < 256) (hh : h ≤ 254) (hd : d < 256)
    (hsrc : src.length = 4 * h) (hdst : dst.length = 4 * d)
    (hlen : c.length < 4294967296) (hml : ml = 0 ∨ c.length ≤ ml) :
    NewMessageFromReader pid ml
        (flags :: t :: h :: d :: (be32 c.length ++ (src ++ (dst ++ (c ++ rest)))))
      = (.ok ⟨⟨flags, (t + 255) % 256, h + 1, d - 1, c.length⟩,
              src ++ be32 pid, dst.take (4 * (d - 1)), c⟩, false) := by
  have hdh := decodeHeader_encoded flags t h d c.length (src ++ (dst ++ (c ++ rest)))
    hf ht (by omega) hd hlen
  simp only [NewMessageFromReader, hdh]
  have hml' : ¬(ml ≠ 0 ∧ ml < c.length) := by
    rcases hml with rfl | hml
    · simp
    · simp
      omega
  rw [if_neg hml']
  have hh' : ¬(h = 255) := by omega
  rw [if_neg hh']
  have hs4 : 4 * (h + 1) - 4 = src.length := by omega
  have hblen : ¬((src ++ (dst ++ (c ++ rest))).length < 4 * (h + 1) - 4) := by
    simp [List.length_append]
    omega
  rw [if_neg hblen]
  simp only [hs4, List.take_left, List.drop_left]
  rcases Nat.eq_zero_or_pos d with rfl | hdpos
  · rw [if_neg (by omega)]
    have hdst0 : dst = [] := List.length_eq_zero.mp (by omega)
    subst hdst0
    have hlen2 : ¬(([] ++ (c ++ rest)).length < c.length) := by
      simp [List.length_append]
    rw [if_neg hlen2]
    simp [List.take_append_eq_append_take, Nat.sub_eq_zero_of_le (le_refl c.length)]
  · rw [if_pos hdpos]
    have hlen1 : ¬((dst ++ (c ++ rest)).length < 4 * (d - 1) + 4) := by
      simp [List.length_append]
      omega
    rw [if_neg hlen1]
    have hdrop : (dst ++ (c ++ rest)).drop (4 * (d - 1) + 4) = c ++ rest := by
      have h4 : 4 * (d - 1) + 4 = dst.length := by omega
      rw [h4, List.drop_left]
    rw [hdrop]
    have hlen2 : ¬((c ++ rest).length < c.length) := by simp [List.length_append]
    rw [if_neg hlen2]
    have htakedst : (dst ++ (c ++ rest)).take (4 * (d - 1)) = dst.take (4 * (d - 1)) := by
      simp [List.take_append_eq_append_take,
        Nat.sub_eq_zero_of_le (by omega : 4 * (d - 1) ≤ dst.length)]
    have htakec : (c ++ rest).take c.length = c := List.take_left c rest
    rw [htakedst, htakec]

theorem decodeHeader_short (w : List Nat) (hw : w.length < 8) :
    decodeHeader w = none := by
  rcases w with _ | ⟨a, _ | ⟨b, _ | ⟨c, _ | ⟨d, _ | ⟨e1, _ | ⟨e2, _ | ⟨e3, _ | ⟨e4, rest⟩⟩⟩⟩⟩⟩⟩⟩ <;>
    first
      | rfl
      | (simp [List.length_cons] at hw <;> omega)

theorem decodeHeader_of_length (w : List Nat) (hw : 8 ≤ w.length) :
    decodeHeader w
      = some (⟨w.getD 0 0 % 256, w.getD 1 0 % 256, w.getD 2 0 % 256,
              w.getD 3 0 % 256, be32val ((w.drop 4).take 4)⟩, w.drop 8) := by
  rcases w with _ | ⟨a, _ | ⟨b, _ | ⟨c, _ | ⟨d, _ | ⟨e1, _ | ⟨e2, _ | ⟨e3, _ | ⟨e4, rest⟩⟩⟩⟩⟩⟩⟩⟩ <;>
    first
      | (simp [List.length_cons] at hw <;> omega)
      | rfl

/-- Any successful decode satisfies: `Hops` and `Distance` match the path
byte sizes, and the delivered `TTL` is the wire `TTL` byte decremented
modulo 256. -/
theorem decode_ok_inv (pid ml : Nat) (w : List Nat) (m : Message) (b : Bool)
    (hok : NewMessageFromReader pid ml w = (.ok m, b)) :
    m.header.hops = m.source.length / 4
    ∧ m.header.distance = m.destination.length / 4
    ∧ m.header.ttl = (w.getD 1 0 % 256 + 255) % 256 := by
  by_cases hw : 8 ≤ w.length
  · rw [NewMessageFromReader] at hok
    rw [decodeHeader_of_length w hw] at hok
    simp only at hok
    split_ifs at hok with h1 h2 h3 h4 h5 h6 h7
    all_goals simp_all
    · obtain ⟨⟨rfl, rfl⟩, rfl⟩ := hok
      refine ⟨?_, ?_, ?_⟩ <;>
        simp [List.length_take, List.length_append, length_be32] <;> omega
    · obtain ⟨⟨rfl, rfl⟩, rfl⟩ := hok
      refine ⟨?_, ?_, ?_⟩ <;>
        simp [List.length_take, List.length_append, length_be32] <;> omega
  · rw [NewMessageFromReader, decodeHeader_short w (by omega)] at hok
    simp at hok

theorem decode_error_no_delivery (pid ml : Nat) (w : List Nat) (e : DecodeErr)
    (he : (NewMessageFromReader pid ml w).1 = .error e) :
    receiver.runDeliver false (decodeOpt pid ml w) = none := by
  rw [decodeOpt, he]
  rfl

theorem decode_too_long (pid ml : Nat) (w : List Nat) (hw : 8 ≤ w.length)
    (hc : ml ≠ 0 ∧ ml < be32val ((w.drop 4).take 4)) :
    NewMessageFromReader pid ml w = (.error .contentTooLong, true) := by
  rw [NewMessageFromReader, decodeHeader_of_length w hw]
  dsimp only
  rw [if_pos hc]

theorem decode_not_too_long (pid ml : Nat) (w : List Nat) (hw : 8 ≤ w.length)
    (hc : ¬(ml ≠ 0 ∧ ml < be32val ((w.drop 4).take 4))) :
    (NewMessageFromReader pid ml w).1 ≠ .error .contentTooLong
    ∧ (NewMessageFromReader pid ml w).2 = false := by
  rw [NewMessageFromReader, decodeHeader_of_length w hw]
  dsimp only
  rw [if_neg hc]
  split_ifs <;> simp

/-- C4: Decoding a non-raw inbound frame on a pipe with ID `pid` allocates a
single buffer of size `sourceSize + destSize + Length` with
`sourceSize = 4*(Hops+1)` and `destSize = 4*max(0, Distance-1)`; the
resulting message's Source equals the wire source path with `pid` appended
as the final 4-byte big-endian ID and Hops incremented; when `Distance > 0`
the last 4 bytes of the wire destination are read and discarded and
Distance is decremented; Content equals the Length content bytes from the
wire. -/
theorem c4_decode_functional (pid ml flags t h d : Nat) (src dst c rest : List Nat)
    (hf : flags < 256) (ht : t < 256) (hh : h ≤ 254) (hd : d < 256)
    (hsrc : src.length = 4 * h) (hdst : dst.length = 4 * d)
    (hlen : c.length < 4294967296) (hml : ml = 0 ∨ c.length ≤ ml) :
    NewMessageFromReader pid ml
        (flags :: t :: h :: d :: (be32 c.length ++ (src ++ (dst ++ (c ++ rest)))))
      = (.ok ⟨⟨flags, (t + 255) % 256, h + 1, d - 1, c.length⟩,
              src ++ be32 pid, dst.take (4 * (d - 1)), c⟩, false)
    ∧ (src ++ be32 pid).length + (dst.take (4 * (d - 1))).length + c.length
        = 4 * (h + 1) + (if 0 < d then 4 * (d - 1) else 0) + c.length := by
  refine ⟨NewMessageFromReader_append pid ml flags t h d src dst c rest
    hf ht hh hd hsrc hdst hlen hml, ?_⟩
  simp only [List.length_append, List.length_take, length_be32]
  split_ifs <;> omega

/-- C4 witness: the theorem applied at a concrete two-hop frame. -/
theorem c4_witness_concrete :
    (([0, 0, 0, 1] : List Nat).length = 4 * 1
      ∧ ([0, 0, 0, 2, 0, 0, 0, 3] : List Nat).length = 4 * 2
      ∧ ([7] : List Nat).length < 4294967296)
    ∧ (NewMessageFromReader 9 0
        (0 :: 16 :: 1 :: 2 :: (be32 ([7] : List Nat).length
          ++ ([0, 0, 0, 1] ++ ([0, 0, 0, 2, 0, 0, 0, 3] ++ ([7] ++ [])))))
      = (.ok ⟨⟨0, (16 + 255) % 256, 1 + 1, 2 - 1, ([7] : List Nat).length⟩,
              [0, 0, 0, 1] ++ be32 9, ([0, 0, 0, 2, 0, 0, 0, 3] : List Nat).take (4 * (2 - 1)),
              [7]⟩, false)
      ∧ ([0, 0, 0, 1] ++ be32 9).length
          + (([0, 0, 0, 2, 0, 0, 0, 3] : List Nat).take (4 * (2 - 1))).length
          + ([7] : List Nat).length
        = 4 * (1 + 1) + (if 0 < 2 then 4 * (2 - 1) else 0) + ([7] : List Nat).length) :=
  ⟨by decide,
   c4_decode_functional 9 0 0 16 1 2 [0, 0, 0, 1] [0, 0, 0, 2, 0, 0, 0, 3] [7] []
     (by decide) (by decide) (by decide) (by decide) (by decide) (by decide)
     (by decide) (Or.inl rfl)⟩

/-- C5: Decoding an inbound frame fails with ContentTooLong and closes the
offending pipe if and only if `MaxRecvContentLength` is non-zero and the
frame header's Length exceeds it; in that case no message is delivered. -/
theorem c5_content_too_long_iff (pid ml : Nat) (w : List Nat) :
    ((NewMessageFromReader pid ml w).1 = .error .contentTooLong
      ↔ 8 ≤ w.length ∧ ml ≠ 0 ∧ ml < be32val ((w.drop 4).take 4))
    ∧ ((NewMessageFromReader pid ml w).2 = true
      ↔ 8 ≤ w.length ∧ ml ≠ 0 ∧ ml < be32val ((w.drop 4).take 4))
    ∧ ((NewMessageFromReader pid ml w).1 = .error .contentTooLong
      → receiver.runDeliver false (decodeOpt pid ml w) = none) := by
  refine ⟨?_, ?_, fun he => decode_error_no_delivery pid ml w _ he⟩ <;>
  · by_cases hw : 8 ≤ w.length
    · by_cases hc : ml ≠ 0 ∧ ml < be32val ((w.drop 4).take 4)
      · have hE := decode_too_long pid ml w hw hc
        simp [hE, hw, hc]
      · have hE := decode_not_too_long pid ml w hw hc
        constructor
        · intro hcontra
          first
            | exact absurd hcontra hE.1
            | (rw [hE.2] at hcontra; exact absurd hcontra (by simp))
        · intro hrhs
          exact absurd ⟨hrhs.2.1, hrhs.2.2⟩ hc
    · have hE : NewMessageFromReader pid ml w = (.error .headerRead, false) := by
        rw [NewMessageFromReader, decodeHeader_short w (by omega)]
      simp [hE, hw]

/-- C5 witness: a frame whose header announces Length 9 against limit 5 is
rejected with ContentTooLong and nothing is delivered. -/
theorem c5_witness_concrete :
    (8 ≤ ([0, 16, 0, 0, 0, 0, 0, 9] : List Nat).length
      ∧ (5 : Nat) ≠ 0
      ∧ (5 : Nat) < be32val ((([0, 16, 0, 0, 0, 0, 0, 9] : List Nat).drop 4).take 4))
    ∧ (NewMessageFromReader 3 5 [0, 16, 0, 0, 0, 0, 0, 9]).1 = .error .contentTooLong
    ∧ (NewMessageFromReader 3 5 [0, 16, 0, 0, 0, 0, 0, 9]).2 = true
    ∧ receiver.runDeliver false (decodeOpt 3 5 [0, 16, 0, 0, 0, 0, 0, 9]) = none :=
  ⟨by decide, by rfl, by rfl,
   (c5_content_too_long_iff 3 5 [0, 16, 0, 0, 0, 0, 0, 9]).2.2 (by rfl)⟩

set_option maxRecDepth 8192 in
/-- C2 counterexample: `NewSendMessage` with a destination path of 257 ids
(1028 bytes) wraps `Distance = uint8(257) = 1` while keeping all 1028
destination bytes, violating `Distance == len(Destination)/4`. -/
theorem c2_counterexample_distance_wrap :
    (NewSendMessage SendTypeToDest (List.replicate 1028 0) 0 16 []).header.distance = 1
    ∧ (NewSendMessage SendTypeToDest (List.replicate 1028 0) 0 16 []).destination.length / 4
        = 257 := by
  have hlen : (List.replicate 1028 (0 : Nat)).length = 1028 := List.length_replicate 1028 0
  have hL : MsgPath.Length (List.replicate 1028 (0 : Nat)) = 1 := by
    rw [MsgPath.Length, hlen]
  constructor
  · exact hL
  · show (if 0 < MsgPath.Length (List.replicate 1028 (0 : Nat))
        then List.replicate 1028 (0 : Nat) else ([] : List Nat)).length / 4 = 257
    rw [hL]
    simp [hlen]

/-- C2 (amended): `Hops == len(Source)/4` and `Distance == len(Destination)/4`
hold after every completed per-hop decode, and for send construction
whenever the destination path holds fewer than 256 pipe ids (the `uint8`
`Distance` wraps otherwise). -/
theorem c2_hops_distance_invariant_amended (pid ml sendType flags ttl : Nat)
    (w dest content : List Nat) (m : Message) (b : Bool)
    (hok : NewMessageFromReader pid ml w = (.ok m, b))
    (hdest : dest.length / 4 < 256) :
    (m.header.hops = m.source.length / 4
      ∧ m.header.distance = m.destination.length / 4)
    ∧ ((NewSendMessage sendType dest flags ttl content).header.hops
        = (NewSendMessage sendType dest flags ttl content).source.length / 4
      ∧ (NewSendMessage sendType dest flags ttl content).header.distance
        = (NewSendMessage sendType dest flags ttl content).destination.length / 4) := by
  have hinv := decode_ok_inv pid ml w m b hok
  refine ⟨⟨hinv.1, hinv.2.1⟩, by simp [NewSendMessage], ?_⟩
  simp only [NewSendMessage, MsgPath.Length]
  simp only [Nat.mod_eq_of_lt hdest]
  split_ifs with hpos
  · rfl
  · simp
    omega

/-- C2 witness: the amended invariant at a concrete decode and a concrete
send construction. -/
theorem c2_witness_concrete :
    (NewMessageFromReader 5 0 [0, 16, 0, 1, 0, 0, 0, 2, 0, 0, 0, 3, 8, 9]
        = (.ok ⟨⟨0, 15, 1, 0, 2⟩, [0, 0, 0, 5], [], [8, 9]⟩, false)
      ∧ ([0, 0, 0, 4] : List Nat).length / 4 < 256)
    ∧ (((⟨⟨0, 15, 1, 0, 2⟩, [0, 0, 0, 5], [], [8, 9]⟩ : Message).header.hops
        = (⟨⟨0, 15, 1, 0, 2⟩, [0, 0, 0, 5], [], [8, 9]⟩ : Message).source.length / 4
      ∧ (⟨⟨0, 15, 1, 0, 2⟩, [0, 0, 0, 5], [], [8, 9]⟩ : Message).header.distance
        = (⟨⟨0, 15, 1, 0, 2⟩, [0, 0, 0, 5], [], [8, 9]⟩ : Message).destination.length / 4)
    ∧ ((NewSendMessage SendTypeToDest [0, 0, 0, 4] 0 16 [1]).header.hops
        = (NewSendMessage SendTypeToDest [0, 0, 0, 4] 0 16 [1]).source.length / 4
      ∧ (NewSendMessage SendTypeToDest [0, 0, 0, 4] 0 16 [1]).header.distance
        = (NewSendMessage SendTypeToDest [0, 0, 0, 4] 0 16 [1]).destination.length / 4)) :=
  ⟨⟨by rfl, by decide⟩,
   c2_hops_distance_invariant_amended 5 0 SendTypeToDest 0 16
     [0, 16, 0, 1, 0, 0, 0, 2, 0, 0, 0, 3, 8, 9] [0, 0, 0, 4] [1]
     ⟨⟨0, 15, 1, 0, 2⟩, [0, 0, 0, 5], [], [8, 9]⟩ false (by rfl) (by decide)⟩

/-- C3 counterexample: the frame `[0,1,0,0,0,0,0,0]` (TTL byte 1) decodes
with TTL 0 after the per-hop decrement and is still delivered to the
shared queue, refuting "a message with TTL == 0 is never delivered". -/
theorem c3_counterexample_ttl_zero_delivered :
    receiver.runDeliver false (decodeOpt 7 0 [0, 1, 0, 0, 0, 0, 0, 0])
        = some ⟨⟨0, 0, 1, 0, 0⟩, [0, 0, 0, 7], [], []⟩
    ∧ (decodeOpt 7 0 [0, 1, 0, 0, 0, 0, 0, 0]).map (fun m => m.header.ttl) = some 0 := by
  decide

/-- C3 (amended): the decoder decrements TTL modulo 256 but never drops a
frame for TTL reaching 0: every successfully decoded non-internal message
is delivered to the shared queue regardless of its TTL (including TTL 0),
and the delivered TTL is the wire TTL byte decremented mod 256. -/
theorem c3_ttl_never_drops_amended (pid ml : Nat) (w : List Nat) (m : Message)
    (hdec : decodeOpt pid ml w = some m)
    (hint : m.header.HasFlags MsgFlagInternal = false) :
    receiver.runDeliver false (decodeOpt pid ml w) = some m
    ∧ m.header.ttl = (w.getD 1 0 % 256 + 255) % 256 := by
  constructor
  · rw [hdec]
    simp [receiver.runDeliver, hint]
  · rcases hE : NewMessageFromReader pid ml w with ⟨res, b⟩
    rcases res with e | m'
    · rw [decodeOpt, hE] at hdec
      simp [Except.toOption] at hdec
    · rw [decodeOpt, hE] at hdec
      simp [Except.toOption] at hdec
      subst hdec
      exact (decode_ok_inv pid ml w m' b hE).2.2

/-- C3 witness: the amended theorem applied at a concrete TTL-1 frame. -/
theorem c3_witness_concrete :
    (decodeOpt 1 0 [0, 1, 0, 0, 0, 0, 0, 0] = some ⟨⟨0, 0, 1, 0, 0⟩, [0, 0, 0, 1], [], []⟩
      ∧ (⟨⟨0, 0, 1, 0, 0⟩, [0, 0, 0, 1], [], []⟩ : Message).header.HasFlags MsgFlagInternal
          = false)
    ∧ (receiver.runDeliver false (decodeOpt 1 0 [0, 1, 0, 0, 0, 0, 0, 0])
        = some ⟨⟨0, 0, 1, 0, 0⟩, [0, 0, 0, 1], [], []⟩
      ∧ (⟨⟨0, 0, 1, 0, 0⟩, [0, 0, 0, 1], [], []⟩ : Message).header.ttl
        = (([0, 1, 0, 0, 0, 0, 0, 0] : List Nat).getD 1 0 % 256 + 255) % 256) :=
  ⟨⟨by decide, by decide⟩,
   c3_ttl_never_drops_amended 1 0 [0, 1, 0, 0, 0, 0, 0, 0]
     ⟨⟨0, 0, 1, 0, 0⟩, [0, 0, 0, 1], [], []⟩ (by decide) (by decide)⟩

/-- C9: every received raw chunk is wrapped as a ToOne raw message whose
Source is exactly the receiving pipe's single 4-byte ID, with Hops = 1,
Distance = 0, and Length equal to the chunk length. -/
theorem c9_raw_recv_message (pid : Nat) (content : List Nat)
    (hp : pid < 4294967296) (hc : content.length < 4294967296) :
    (NewRawRecvMessage pid (some content)).source = be32 pid
    ∧ (NewRawRecvMessage pid (some content)).source.length = 4
    ∧ MsgPath.CurID (NewRawRecvMessage pid (some content)).source = pid
    ∧ (NewRawRecvMessage pid (some content)).header.hops = 1
    ∧ (NewRawRecvMessage pid (some content)).header.distance = 0
    ∧ (NewRawRecvMessage pid (some content)).header.length = content.length
    ∧ (NewRawRecvMessage pid (some content)).header.SendType = SendTypeToOne
    ∧ (NewRawRecvMessage pid (some content)).header.HasFlags MsgFlagRaw = true
    ∧ (NewRawRecvMessage pid (some content)).content = content := by
  refine ⟨rfl, length_be32 pid, ?_, rfl, rfl, ?_, ?_, ?_, rfl⟩
  · show MsgPath.CurID (be32 pid) = pid
    rw [MsgPath.CurID, length_be32]
    norm_num
    exact be32val_be32 pid hp
  · show content.length % 4294967296 = content.length
    exact Nat.mod_eq_of_lt hc
  · show (MsgFlagRaw ||| SendTypeToOne) % 4 = SendTypeToOne
    decide
  · show ((MsgFlagRaw ||| SendTypeToOne) &&& MsgFlagRaw == MsgFlagRaw) = true
    decide

theorem length_join_be32 (l : List Nat) : ((l.map be32).join).length = 4 * l.length := by
  induction l with
  | nil => simp
  | cons a l ih =>
    simp only [List.map_cons, List.join_cons, List.length_append, length_be32, ih,
      List.length_cons]
    ring

theorem curID_append_be32 (s : List Nat) (a : Nat) (ha : a < 4294967296) :
    MsgPath.CurID (s ++ be32 a) = a := by
  rw [MsgPath.CurID]
  have h1 : (s ++ be32 a).length = s.length + 4 := by simp [length_be32]
  rw [h1]
  have h2 : s.length + 4 - 4 = s.length := by omega
  rw [h2, List.drop_left]
  exact be32val_be32 a ha

/-- Decoding the encoded frame of an in-flight message on pipe `pid`. -/
theorem NewMessageFromReader_encode (pid pml f t ho d : Nat) (src dst c : List Nat)
    (hf : f < 256) (ht : t < 256) (hh : ho ≤ 254) (hd : d < 256)
    (hsrc : src.length = 4 * ho) (hdst : dst.length = 4 * d)
    (hlen : c.length < 4294967296) (hml : pml = 0 ∨ c.length ≤ pml) :
    NewMessageFromReader pid pml (encodeMessage ⟨⟨f, t, ho, d, c.length⟩, src, dst, c⟩)
      = (.ok ⟨⟨f, (t + 255) % 256, ho + 1, d - 1, c.length⟩,
              src ++ be32 pid, dst.take (4 * (d - 1)), c⟩, false) := by
  have hshape : encodeMessage ⟨⟨f, t, ho, d, c.length⟩, src, dst, c⟩
      = f :: t :: ho :: d :: (be32 c.length ++ (src ++ (dst ++ (c ++ [])))) := by
    simp [encodeMessage, MsgHeader.Encode, Nat.mod_eq_of_lt, hf, ht,
      (by omega : ho < 256), hd, List.append_assoc]
  rw [hshape]
  exact NewMessageFromReader_append pid pml f t ho d src dst c [] hf ht hh hd hsrc hdst hlen hml

/-- An in-flight `ToDest` message whose destination encodes the id list
`rs.reverse` traverses pipes `rs` in order: each hop is routed on the pipe
named by the destination tail and the next node's decode pops it. -/
theorem replyTraverse_spec (rs : List Nat) (hl : List (Nat × Nat))
    (f t ho le : Nat) (src c : List Nat)
    (hf : f < 256) (ht : t < 256)
    (hsrc : src.length = 4 * ho)
    (hhops : ho + rs.length ≤ 255)
    (hle : le = c.length)
    (hlenlt : c.length < 4294967296)
    (hr : ∀ r ∈ rs, r < 4294967296)
    (hcount : hl.length = rs.length)
    (hml : ∀ pm ∈ hl, pm.2 = 0 ∨ c.length ≤ pm.2) :
    replyTraverse ⟨⟨f, t, ho, rs.length, le⟩, src, ((rs.reverse.map be32).join), c⟩ hl
      = some (rs, ⟨⟨f, (t + 255 * rs.length) % 256, ho + rs.length, 0, le⟩,
              src ++ ((hl.map fun pm => be32 pm.1).join), [], c⟩) := by
  subst hle
  induction rs generalizing hl t ho src with
  | nil =>
    have hhl : hl = [] := List.length_eq_zero.mp (by simpa using hcount)
    subst hhl
    simp [replyTraverse, Nat.mod_eq_of_lt ht]
  | cons r rs ih =>
    rcases hl with _ | ⟨⟨p, pml⟩, hl'⟩
    · simp at hcount
    have hhops' : ho + rs.length + 1 ≤ 255 := by
      simp only [List.length_cons] at hhops
      omega
    have hcount' : hl'.length = rs.length := by
      simp only [List.length_cons] at hcount
      omega
    have hrhead : r < 4294967296 := hr r (by simp)
    have hSlen : ((rs.reverse.map be32).join).length = 4 * rs.length := by
      rw [length_join_be32, List.length_reverse]
    have hdest : (((r :: rs).reverse.map be32).join)
        = (rs.reverse.map be32).join ++ be32 r := by
      simp [List.reverse_cons]
    have hdstlen : ((rs.reverse.map be32).join ++ be32 r).length
        = 4 * (rs.length + 1) := by
      rw [List.length_append, hSlen, length_be32]
      ring
    have hdec := NewMessageFromReader_encode p pml f t ho (rs.length + 1) src
      ((rs.reverse.map be32).join ++ be32 r) c hf ht (by omega)
      (by omega) hsrc hdstlen hlenlt (hml ⟨p, pml⟩ (by simp))
    have htake : ((rs.reverse.map be32).join ++ be32 r).take (4 * (rs.length + 1 - 1))
        = (rs.reverse.map be32).join := by
      have h4 : 4 * (rs.length + 1 - 1) = ((rs.reverse.map be32).join).length := by
        rw [hSlen]
        omega
      rw [h4, List.take_left]
    have hhop : replyHop p pml ⟨⟨f, t, ho, (r :: rs).length, c.length⟩, src,
          (((r :: rs).reverse.map be32).join), c⟩
        = some (r, ⟨⟨f, (t + 255) % 256, ho + 1, rs.length, c.length⟩,
            src ++ be32 p, (rs.reverse.map be32).join, c⟩) := by
      rw [replyHop, routeToDest]
      have hne : ¬((((r :: rs).reverse.map be32).join).length = 0) := by
        rw [hdest]
        simp [length_be32]
      rw [if_neg hne]
      have hcur : MsgPath.CurID (((r :: rs).reverse.map be32).join) = r := by
        rw [hdest]
        exact curID_append_be32 _ r hrhead
      have hframe : decodeOpt p pml (encodeMessage ⟨⟨f, t, ho, (r :: rs).length, c.length⟩,
          src, (((r :: rs).reverse.map be32).join), c⟩)
          = some ⟨⟨f, (t + 255) % 256, ho + 1, rs.length, c.length⟩,
              src ++ be32 p, (rs.reverse.map be32).join, c⟩ := by
        rw [decodeOpt]
        have hlc : (r :: rs).length = rs.length + 1 := by simp
        rw [show (⟨⟨f, t, ho, (r :: rs).length, c.length⟩, src,
              (((r :: rs).reverse.map be32).join), c⟩ : Message)
            = ⟨⟨f, t, ho, rs.length + 1, c.length⟩, src,
              ((rs.reverse.map be32).join ++ be32 r), c⟩ from by rw [hdest, hlc]]
        rw [hdec]
        simp only [Except.toOption]
        rw [htake]
        rw [show rs.length + 1 - 1 = rs.length from by omega]
      simp only [hcur, hframe]
    have hih := ih hl' ((t + 255) % 256) (ho + 1) (src ++ be32 p)
      (Nat.mod_lt _ (by norm_num))
      (by rw [List.length_append, hsrc, length_be32]; ring)
      (by omega)
      (fun x hx => hr x (by simp [hx]))
      hcount'
      (fun pm hpm => hml pm (by simp [hpm]))
    simp only [replyTraverse, hhop, hih]
    have httl : ((t + 255) % 256 + 255 * rs.length) % 256
        = (t + 255 * (r :: rs).length) % 256 := by
      rw [Nat.mod_add_mod]
      congr 1
      rw [List.length_cons]
      ring
    have hhops2 : ho + 1 + rs.length = ho + (r :: rs).length := by
      rw [List.length_cons]
      ring
    have hsrc2 : (src ++ be32 p) ++ ((hl'.map fun pm => be32 pm.1).join)
        = src ++ (((⟨p, pml⟩ :: hl').map fun pm => be32 pm.1).join) := by
      simp [List.append_assoc]
    rw [httl, hhops2, hsrc2]

/-- C1: For every request message received with accumulated Source path
encoding the pipe-id list `as`, a reply built with SendType=ToDest,
Destination = that Source, and empty own Source traverses exactly the
pipes recorded in it in reverse order, each intermediate hop popping its
own pipe ID from the tail of the Destination, and arrives at the
originator (Distance 0, empty Destination, content intact). -/
theorem c1_reply_retraces_source_reverse (as : List Nat) (hl : List (Nat × Nat))
    (flags ttl : Nat) (content : List Nat)
    (hne : as ≠ []) (hbound : as.length ≤ 255)
    (ha : ∀ a ∈ as, a < 4294967296)
    (hcount : hl.length = as.length)
    (hml : ∀ pm ∈ hl, pm.2 = 0 ∨ content.length ≤ pm.2)
    (hclen : content.length < 4294967296) :
    replyTraverse (NewSendMessage SendTypeToDest ((as.map be32).join) flags ttl content) hl
      = some (as.reverse,
          ⟨⟨(flags % 256) ||| SendTypeToDest,
            ((if ttl % 256 = 0 then DefaultMsgTTL else ttl % 256) + 255 * as.length) % 256,
            as.length, 0, content.length⟩,
            ((hl.map fun pm => be32 pm.1).join), [], content⟩) := by
  have hpos : 0 < as.length := List.length_pos.mpr hne
  have hLd : MsgPath.Length ((as.map be32).join) = as.length := by
    rw [MsgPath.Length, length_join_be32, Nat.mul_div_cancel_left as.length
      (by norm_num : 0 < 4)]
    exact Nat.mod_eq_of_lt (by omega)
  have hf2 : (flags % 256) ||| SendTypeToDest < 256 :=
    Nat.or_lt_two_pow (n := 8) (Nat.mod_lt _ (by norm_num)) (by decide)
  have ht2 : (if ttl % 256 = 0 then DefaultMsgTTL else ttl % 256) < 256 := by
    split_ifs
    · decide
    · exact Nat.mod_lt _ (by norm_num)
  have hmsg : NewSendMessage SendTypeToDest ((as.map be32).join) flags ttl content
      = ⟨⟨(flags % 256) ||| SendTypeToDest,
          (if ttl % 256 = 0 then DefaultMsgTTL else ttl % 256), 0,
          as.reverse.length, content.length⟩, [],
          ((as.reverse.reverse.map be32).join), content⟩ := by
    simp only [NewSendMessage, hLd]
    rw [if_pos hpos]
    simp [List.reverse_reverse, List.length_reverse, Nat.mod_eq_of_lt hclen,
      SendTypeToDest]
  rw [hmsg]
  rw [replyTraverse_spec as.reverse hl ((flags % 256) ||| SendTypeToDest)
      (if ttl % 256 = 0 then DefaultMsgTTL else ttl % 256) 0 content.length [] content
      hf2 ht2 rfl
      (by rw [List.length_reverse]; omega) rfl hclen
      (fun r hr2 => ha r (List.mem_reverse.mp hr2))
      (by rw [List.length_reverse]; exact hcount) hml]
  simp [List.length_reverse]

/-- C1 witness: a two-hop reply retracing a concrete source path. -/
theorem c1_witness_concrete :
    (([5, 9] : List Nat) ≠ [] ∧ ([5, 9] : List Nat).length ≤ 255
      ∧ ([(3, 0), (4, 0)] : List (Nat × Nat)).length = ([5, 9] : List Nat).length)
    ∧ replyTraverse
        (NewSendMessage SendTypeToDest ((([5, 9] : List Nat).map be32).join) 0 16 [1, 2])
        [(3, 0), (4, 0)]
      = some (([5, 9] : List Nat).reverse,
          ⟨⟨(0 % 256) ||| SendTypeToDest,
            ((if 16 % 256 = 0 then DefaultMsgTTL else 16 % 256)
              + 255 * ([5, 9] : List Nat).length) % 256,
            ([5, 9] : List Nat).length, 0, ([1, 2] : List Nat).length⟩,
            ((([(3, 0), (4, 0)] : List (Nat × Nat)).map fun pm => be32 pm.1).join),
            [], [1, 2]⟩) :=
  ⟨⟨by decide, by decide, by decide⟩,
   c1_reply_retraces_source_reverse [5, 9] [(3, 0), (4, 0)] 0 16 [1, 2]
     (by decide) (by decide) (by decide) (by decide) (by decide) (by decide)⟩

/-- C9 witness: the theorem applied at a concrete pipe id and chunk. -/
theorem c9_witness_concrete :
    ((3 : Nat) < 4294967296 ∧ ([10, 11] : List Nat).length < 4294967296)
    ∧ ((NewRawRecvMessage 3 (some [10, 11])).source = be32 3
      ∧ (NewRawRecvMessage 3 (some [10, 11])).source.length = 4
      ∧ MsgPath.CurID (NewRawRecvMessage 3 (some [10, 11])).source = 3
      ∧ (NewRawRecvMessage 3 (some [10, 11])).header.hops = 1
      ∧ (NewRawRecvMessage 3 (some [10, 11])).header.distance = 0
      ∧ (NewRawRecvMessage 3 (some [10, 11])).header.length = ([10, 11] : List Nat).length
      ∧ (NewRawRecvMessage 3 (some [10, 11])).header.SendType = SendTypeToOne
      ∧ (NewRawRecvMessage 3 (some [10, 11])).header.HasFlags MsgFlagRaw = true
      ∧ (NewRawRecvMessage 3 (some [10, 11])).content = [10, 11]) :=
  ⟨by decide, c9_raw_recv_message 3 [10, 11] (by decide) (by decide)⟩

end message

namespace utils

theorem nextIDAux_ok (fuel : Nat) (g : RecyclableIDGenerator) (id : Nat)
    (g2 : RecyclableIDGenerator)
    (h : RecyclableIDGenerator.NextIDAux fuel g = some (id, g2)) :
    id ≠ 0 ∧ id < 2147483648 ∧ id ∉ g.ids ∧ g2.ids = insert id g.ids := by
  induction fuel generalizing g with
  | zero => simp [RecyclableIDGenerator.NextIDAux] at h
  | succ fuel ih =>
    rw [RecyclableIDGenerator.NextIDAux] at h
    split_ifs at h with h0 hmem
    · exact ih ⟨g.ids, (g.next + 1) % 4294967296⟩ h
    · exact ih ⟨g.ids, (g.next + 1) % 4294967296⟩ h
    · simp only [Option.some.injEq, Prod.mk.injEq] at h
      obtain ⟨rfl, rfl⟩ := h
      exact ⟨h0, Nat.mod_lt _ (by norm_num), hmem, rfl⟩

theorem idStep_inv (g : RecyclableIDGenerator) (held : List Nat) (op : IDOp)
    (hnd : held.Nodup) (hin : ∀ i ∈ held, i ≠ 0 ∧ i < 2147483648 ∧ i ∈ g.ids) :
    (idStep (g, held) op).2.Nodup
    ∧ ∀ i ∈ (idStep (g, held) op).2,
        i ≠ 0 ∧ i < 2147483648 ∧ i ∈ (idStep (g, held) op).1.ids := by
  cases op with
  | next fuel =>
    simp only [idStep, RecyclableIDGenerator.NextID]
    rcases hE : RecyclableIDGenerator.NextIDAux fuel g with _ | ⟨id, g2⟩
    · exact ⟨hnd, hin⟩
    · have hok := nextIDAux_ok fuel g id g2 hE
      have hnotheld : id ∉ held := fun hmem => hok.2.2.1 (hin id hmem).2.2
      constructor
      · simp [List.nodup_append, hnd, hnotheld]
      · intro i hi
        rcases List.mem_append.mp hi with hi | hi
        · obtain ⟨h1, h2, h3⟩ := hin i hi
          exact ⟨h1, h2, by rw [hok.2.2.2]; exact Finset.mem_insert_of_mem h3⟩
        · simp only [List.mem_singleton] at hi
          subst hi
          exact ⟨hok.1, hok.2.1, by rw [hok.2.2.2]; exact Finset.mem_insert_self i g.ids⟩
  | recycle id =>
    simp only [idStep, RecyclableIDGenerator.Recycle]
    refine ⟨hnd.erase id, fun i hi => ?_⟩
    have hine : i ∈ held := List.mem_of_mem_erase hi
    have hne : i ≠ id := ((List.Nodup.mem_erase_iff hnd).mp hi).1
    obtain ⟨h1, h2, h3⟩ := hin i hine
    exact ⟨h1, h2, Finset.mem_erase.mpr ⟨hne, h3⟩⟩

theorem idFold_inv (ops : List IDOp) (g : RecyclableIDGenerator) (held : List Nat)
    (hnd : held.Nodup) (hin : ∀ i ∈ held, i ≠ 0 ∧ i < 2147483648 ∧ i ∈ g.ids) :
    (ops.foldl idStep (g, held)).2.Nodup
    ∧ ∀ i ∈ (ops.foldl idStep (g, held)).2,
        i ≠ 0 ∧ i < 2147483648 ∧ i ∈ (ops.foldl idStep (g, held)).1.ids := by
  induction ops generalizing g held with
  | nil => exact ⟨hnd, hin⟩
  | cons op ops ih =>
    have h := idStep_inv g held op hnd hin
    rcases hS : idStep (g, held) op with ⟨g1, held1⟩
    rw [hS] at h
    have := ih g1 held1 h.1 h.2
    simpa [List.foldl_cons, hS] using this

/-- C7: For every sequence of NextID and Recycle calls on the recyclable
ID generator, a NextID that returns yields an identifier that is non-zero,
fits in 31 bits, and is not currently held; consequently the open
(issued, unrecycled) ids are pairwise distinct, each non-zero 31-bit and
held by the generator, so an id can be reissued only after it is recycled. -/
theorem c7_idgen_fresh_nonzero :
    (∀ (fuel : Nat) (g : RecyclableIDGenerator) (id : Nat) (g2 : RecyclableIDGenerator),
        g.NextID fuel = some (id, g2)
        → id ≠ 0 ∧ id < 2147483648 ∧ id ∉ g.ids ∧ g2.ids = insert id g.ids)
    ∧ (∀ ops : List IDOp,
        (idRun ops).2.Nodup
        ∧ ∀ i ∈ (idRun ops).2, i ≠ 0 ∧ i < 2147483648 ∧ i ∈ (idRun ops).1.ids) :=
  ⟨fun fuel g id g2 h => nextIDAux_ok fuel g id g2 h,
   fun ops => idFold_inv ops NewRecyclableIDGenerator [] List.nodup_nil (by simp)⟩

/-- C7 witness: the generator issues id 1 from the fresh state (skipping 0),
and a next/recycle trace keeps the open-id invariant. -/
theorem c7_witness_concrete :
    (NewRecyclableIDGenerator.NextID 5 = some (1, ⟨insert 1 ∅, 2⟩))
    ∧ ((1 : Nat) ≠ 0 ∧ (1 : Nat) < 2147483648 ∧ (1 : Nat) ∉ NewRecyclableIDGenerator.ids
        ∧ (⟨insert 1 ∅, 2⟩ : RecyclableIDGenerator).ids = insert 1 NewRecyclableIDGenerator.ids)
    ∧ ((idRun [.next 5, .recycle 1]).2.Nodup
        ∧ ∀ i ∈ (idRun [.next 5, .recycle 1]).2,
            i ≠ 0 ∧ i < 2147483648 ∧ i ∈ (idRun [.next 5, .recycle 1]).1.ids) :=
  ⟨by rfl,
   c7_idgen_fresh_nonzero.1 5 NewRecyclableIDGenerator 1 ⟨insert 1 ∅, 2⟩ (by rfl),
   c7_idgen_fresh_nonzero.2 [.next 5, .recycle 1]⟩

end utils

namespace connector

theorem connStep_inv (n : Int) (hn : 0 ≤ n) (c : Connector) (op : ConnOp)
    (hlim : c.limit = n) (hcard : (c.pipes.card : Int) ≤ n) :
    (connStep c op).limit = n ∧ ((connStep c op).pipes.card : Int) ≤ n := by
  cases op with
  | add p =>
    simp only [connStep, Connector.addPipe]
    have hc2 : ((insert p c.pipes).card : Int) ≤ (c.pipes.card : Int) + 1 := by
      exact_mod_cast Finset.card_insert_le p c.pipes
    split_ifs with h1 h2
    all_goals dsimp only
    all_goals refine ⟨hlim, ?_⟩
    any_goals exact hcard
    all_goals (rcases h1 with h1 | h1 <;> omega)
  | rem p =>
    simp only [connStep, Connector.remPipe]
    have hle : ((c.pipes.erase p).card : Int) ≤ (c.pipes.card : Int) := by
      exact_mod_cast Finset.card_erase_le
    split_ifs
    all_goals dsimp only
    all_goals exact ⟨hlim, by omega⟩

theorem connFold_inv (n : Int) (hn : 0 ≤ n) (ops : List ConnOp) (c : Connector)
    (hlim : c.limit = n) (hcard : (c.pipes.card : Int) ≤ n) :
    ((connRun c ops).pipes.card : Int) ≤ n := by
  induction ops generalizing c with
  | nil => exact hcard
  | cons op ops ih =>
    have h := connStep_inv n hn c op hlim hcard
    exact ih (connStep c op) h.1 h.2

/-- C6: When PipeLimit >= 0, the number of pipes held by the Connector
never exceeds PipeLimit: a pipe created while the set is at the limit is
immediately closed instead of added, all listeners and dialers are stopped
when the limit is reached, and when a removal brings the count back under
the limit all listeners and dialers are started again. -/
theorem c6_pipe_limit_admission (n : Int) (ls ds : List Bool) (ops : List ConnOp)
    (c : Connector) (p : Nat) (hn : 0 ≤ n) (hc : 0 ≤ c.limit) :
    ((connRun (NewWithLimit n ls ds) ops).pipes.card : Int) ≤ n
    ∧ (c.limit ≤ (c.pipes.card : Int) →
        (c.addPipe p).2 = true ∧ (c.addPipe p).1.pipes = c.pipes)
    ∧ (c.limit ≤ ((c.addPipe p).1.pipes.card : Int) →
        (∀ b ∈ (c.addPipe p).1.listenerStopped, b = true)
        ∧ (∀ b ∈ (c.addPipe p).1.dialerStopped, b = true))
    ∧ (((c.remPipe p).pipes.card : Int) < c.limit →
        (∀ b ∈ (c.remPipe p).listenerStopped, b = false)
        ∧ (∀ b ∈ (c.remPipe p).dialerStopped, b = false)) := by
  have hrp : (c.remPipe p).pipes = c.pipes.erase p := by
    simp only [Connector.remPipe]
    split_ifs <;> rfl
  refine ⟨connFold_inv n hn ops (NewWithLimit n ls ds) rfl (by simpa [NewWithLimit] using hn),
    ?_, ?_, ?_⟩
  · intro hfull
    have h1 : ¬(c.limit = -1 ∨ (c.pipes.card : Int) < c.limit) := by
      push_neg
      omega
    simp only [Connector.addPipe, if_neg h1]
    split_ifs <;> simp
  · intro hfull
    by_cases h1 : c.limit = -1 ∨ (c.pipes.card : Int) < c.limit
    · simp only [Connector.addPipe, if_pos h1] at hfull ⊢
      by_cases hB : c.limit ≠ -1 ∧ c.limit ≤ ((insert p c.pipes).card : Int)
      · rw [if_pos hB]
        refine ⟨?_, ?_⟩ <;>
          (intro b hb; dsimp only at hb; simp only [List.mem_map] at hb;
            obtain ⟨x, _, rfl⟩ := hb; rfl)
      · rw [if_neg hB] at hfull
        dsimp only at hfull
        exact absurd ⟨by omega, hfull⟩ hB
    · simp only [Connector.addPipe, if_neg h1] at hfull ⊢
      by_cases hB : c.limit ≠ -1 ∧ c.limit ≤ ((c.pipes.card : Int))
      · rw [if_pos hB]
        refine ⟨?_, ?_⟩ <;>
          (intro b hb; dsimp only at hb; simp only [List.mem_map] at hb;
            obtain ⟨x, _, rfl⟩ := hb; rfl)
      · rw [if_neg hB] at hfull
        dsimp only at hfull
        exact absurd ⟨by omega, hfull⟩ hB
  · intro hunder
    rw [hrp] at hunder
    simp only [Connector.remPipe]
    by_cases hB : c.limit ≠ -1 ∧ ((c.pipes.erase p).card : Int) < c.limit
    · rw [if_pos hB]
      refine ⟨?_, ?_⟩ <;>
        (intro b hb; dsimp only at hb; simp only [List.mem_map] at hb;
          obtain ⟨x, _, rfl⟩ := hb; rfl)
    · exact absurd ⟨by omega, hunder⟩ hB

/-- C6 witness: the theorem applied at a concrete limit-1 connector. -/
theorem c6_witness_concrete :
    ((0 : Int) ≤ 1 ∧ (0 : Int) ≤ (⟨1, {1}, [false], [false]⟩ : Connector).limit)
    ∧ (((connRun (NewWithLimit 1 [false] [false]) [.add 1, .add 2]).pipes.card : Int) ≤ 1
      ∧ ((⟨1, {1}, [false], [false]⟩ : Connector).limit
            ≤ (((⟨1, {1}, [false], [false]⟩ : Connector).pipes.card : Int)) →
          ((⟨1, {1}, [false], [false]⟩ : Connector).addPipe 2).2 = true
          ∧ ((⟨1, {1}, [false], [false]⟩ : Connector).addPipe 2).1.pipes
              = (⟨1, {1}, [false], [false]⟩ : Connector).pipes)
      ∧ ((⟨1, {1}, [false], [false]⟩ : Connector).limit
            ≤ ((((⟨1, {1}, [false], [false]⟩ : Connector).addPipe 2).1.pipes.card : Int)) →
          (∀ b ∈ ((⟨1, {1}, [false], [false]⟩ : Connector).addPipe 2).1.listenerStopped,
              b = true)
          ∧ (∀ b ∈ ((⟨1, {1}, [false], [false]⟩ : Connector).addPipe 2).1.dialerStopped,
              b = true))
      ∧ ((((⟨1, {1}, [false], [false]⟩ : Connector).remPipe 2).pipes.card : Int)
            < (⟨1, {1}, [false], [false]⟩ : Connector).limit →
          (∀ b ∈ ((⟨1, {1}, [false], [false]⟩ : Connector).remPipe 2).listenerStopped,
              b = false)
          ∧ (∀ b ∈ ((⟨1, {1}, [false], [false]⟩ : Connector).remPipe 2).dialerStopped,
              b = false))) :=
  ⟨⟨by norm_num, by norm_num⟩,
   c6_pipe_limit_admission 1 [false] [false] [.add 1, .add 2]
     ⟨1, {1}, [false], [false]⟩ 2 (by norm_num) (by norm_num)⟩

/-- C8: After each failed dial attempt in redial mode, the dialer's
reconnect delay is multiplied by a jitter factor `actfact u` lying in
[1.1, 1.5] and capped at MaxReconnectTime (default 30 s); a successful
dial resets reconnTime to MinReconnectTime (default 100 ms). Durations are
in nanoseconds; the `float64` draw `u ∈ [0,1)` is modelled exactly. -/
theorem c8_backoff_jitter_cap (rt : Nat) (u : ℚ) (h0 : 0 ≤ u) (h1 : u < 1) :
    ((11 / 10 : ℚ) ≤ actfact u ∧ actfact u ≤ 3 / 2)
    ∧ dialReconnUpdate newDialerOptions rt false true u
        = min ((actfact u * (rt : ℚ)).floor.toNat) defaultMaxReconnTime
    ∧ dialReconnUpdate newDialerOptions rt true true u = defaultMinReconnTime
    ∧ defaultMinReconnTime = 100000000 ∧ defaultMaxReconnTime = 30000000000 := by
  refine ⟨⟨?_, ?_⟩, ?_, by simp [dialReconnUpdate, newDialerOptions],
    by norm_num [defaultMinReconnTime], by norm_num [defaultMaxReconnTime]⟩
  · rw [actfact]
    nlinarith
  · rw [actfact]
    nlinarith
  · simp only [dialReconnUpdate, newDialerOptions, defaultMaxReconnTime,
      defaultMinReconnTime, Bool.false_eq_true, if_false, if_true]
    split_ifs with h
    · rw [Nat.min_eq_right (le_of_lt h.2)]
    · push_neg at h
      have h30 : (30 * 1000000000 : Nat) ≠ 0 := by norm_num
      rw [Nat.min_eq_left (h h30)]

/-- C8 witness: the theorem applied at the default minimum reconnect time
and the jitter draw 1/2. -/
theorem c8_witness_concrete :
    ((0 : ℚ) ≤ 1 / 2 ∧ (1 / 2 : ℚ) < 1)
    ∧ (((11 / 10 : ℚ) ≤ actfact (1 / 2) ∧ actfact (1 / 2) ≤ 3 / 2)
      ∧ dialReconnUpdate newDialerOptions 100000000 false true (1 / 2)
          = min ((actfact (1 / 2) * ((100000000 : Nat) : ℚ)).floor.toNat) defaultMaxReconnTime
      ∧ dialReconnUpdate newDialerOptions 100000000 true true (1 / 2) = defaultMinReconnTime
      ∧ defaultMinReconnTime = 100000000 ∧ defaultMaxReconnTime = 30000000000) :=
  ⟨⟨by norm_num, by norm_num⟩,
   c8_backoff_jitter_cap 100000000 (1 / 2) (by norm_num) (by norm_num)⟩

end connector

namespace sender

/-- C10: the sender's internal message constructor ignores its ttl
argument: for every call, the returned message's Header.TTL equals the
package default of 16, even when ttl differs from 16. -/
theorem c10_newMessage_ignores_ttl (sendType ttl : Nat) (dest content : List Nat) :
    (newMessage sendType ttl dest content).header.ttl = 16
    ∧ (newMessage sendType ttl dest content).header.ttl = defaultMsgTTL := by
  constructor <;> (simp only [newMessage]; split_ifs <;> rfl)

end sender
